import Mathlib

/-!
Verification of the task extraction and caching pipeline of
`obsidian-task-calendar` against its design document.

The embedding translates the relevant parts of `src/settings.ts`
(the adapter file holding `defaultSort`, `TaskOptions.set`,
`FileTaskCache`, `ItemTaskCache` and `ObsidianTaskAdapter`) into pure
Lean definitions.  JavaScript strings are modelled as `List Char`,
JavaScript `Record` objects as association lists with
overwrite-on-assign semantics, and the cooperative async state
(the pending-resolution registry, the per-item memo) as explicit state
passing.
-/

/-- JavaScript strings are modelled as lists of characters. -/
abbrev Str := List Char

/-- JavaScript whitespace test used by `String.prototype.trim`,
restricted to the characters that occur in the sources. -/
def isWS (c : Char) : Bool := c = ' ' || c = '\t'

/-- Model of JavaScript `String.prototype.trim`: drop leading and
trailing whitespace. -/
def jsTrim (s : Str) : Str :=
  ((s.dropWhile isWS).reverse.dropWhile isWS).reverse

/-- Model of JavaScript `s.replace(' ', '')`: `String.replace` with a
string pattern replaces only the first occurrence. -/
def removeFirst (c : Char) : Str → Str
  | [] => []
  | x :: xs => if x = c then xs else x :: removeFirst c xs

/-- Model of JavaScript `[...new Set(l)]`: de-duplication keeping the
first occurrence of each element, in order.  `seen` accumulates the
elements already emitted. -/
def dedupAcc {α : Type} [DecidableEq α] (seen : List α) : List α → List α
  | [] => []
  | a :: l => if a ∈ seen then dedupAcc seen l else a :: dedupAcc (a :: seen) l

/-- `[...new Set(l)]`. -/
def jsSetDedup {α : Type} [DecidableEq α] (l : List α) : List α :=
  dedupAcc [] l

/-- Removing an end-anchored regex match: `s.replace(re, '')` where the
match `tok` is a suffix of `s` keeps only the part before the suffix. -/
def stripSuffixTok (s tok : Str) : Str :=
  s.take (s.length - tok.length)

/-!
## `SortableTask` and `defaultSort` (`settings.ts` lines 1198-1213)

`SortableTask` (imported from `utils/tasks`) is consumed here only
through its optional numeric `order` field (`t1?.order ?? 0`), which is
how the claims read it as well.
-/

/-- The part of `SortableTask` the sort path reads: an optional
ordering key.  `t?.order ?? 0` is `t.order.getD 0`. -/
structure SortableTask where
  order : Option Int
deriving DecidableEq

/-- `defaultSort` (`settings.ts` lines 1200-1213), branch for branch:
`if (o1 <= o2) return -1; else if (o1 === o2) return 0;` and the final
`return 1`.  The `try`/`catch` around the field reads cannot fire in
the pure model (property reads do not throw), so the catch-then-fall-
through path is the same final `return 1`. -/
def defaultSort (t1 t2 : SortableTask) : Int :=
  let o1 := t1.order.getD 0
  let o2 := t2.order.getD 0
  if o1 ≤ o2 then -1
  else if o1 = o2 then 0
  else 1

/-!
## Sort comparator validation (`TaskOptions.set`, lines 1307-1323)

The user-supplied comparator source is run through `eval`; both the
`eval` and the later probe call may throw.  We model a user comparator
as a function returning `Option Int` (`none` = the call threw), and the
`eval` step as `Option UserCmp` (`none` = the source failed to
evaluate).  `TaskOptions.sortFunction` is initialised to `defaultSort`
and only reassigned inside the guarded `try` block, so on any failure
it keeps its previous value; the `catch` arm logs a warning (returned
here as a `Bool` flag).
-/

/-- A user comparator: may throw (`none`) when invoked. -/
def UserCmp := SortableTask → SortableTask → Option Int

/-- The always-succeeding default comparator, as stored in
`sortFunction`. -/
def defaultSortFn : UserCmp := fun t1 t2 => some (defaultSort t1 t2)

/-- First record of the canonical validation probe: `{ order: 2 }`. -/
def probeA : SortableTask := { order := some 2 }

/-- Second record of the canonical validation probe: `{ order: 1 }`. -/
def probeB : SortableTask := { order := some 1 }

/-- The validation test of `TaskOptions.set`:
`sortFunction({order: 2}, {order: 1})` must return a value `> 0`
without throwing. -/
def validateSort (f : UserCmp) : Bool :=
  match f probeA probeB with
  | none => false
  | some t => t > 0

/-- The comparator-installation step of `TaskOptions.set`
(lines 1307-1323): given the currently installed comparator and the
result of evaluating the user's source (`none` when `eval` throws),
return the comparator installed afterwards together with the
warned flag (`true` when the `catch` arm ran and logged). -/
def setSortFunction (current : UserCmp) (src : Option UserCmp) : UserCmp × Bool :=
  match src with
  | none => (current, true)
  | some f => if validateSort f then (f, false) else (current, true)

/-- A comparator that passes the probe (`1 > 0`) but is not the default
comparator (it answers `1` even on equal orders, where the default
answers `-1`). -/
def goodCmp : UserCmp := fun _ _ => some 1

/-- A comparator that fails the probe: it returns `0`, which is not
positive. -/
def badCmp : UserCmp := fun _ _ => some 0

/-! ## Theorems for claims C10 and C3 -/

/-- C10: `defaultSort` never returns 0: it returns -1 whenever the
first argument's order (defaulting to 0 when absent) is less than or
equal to the second's, and 1 otherwise; for two tasks with equal order
it returns -1 under both argument orders, and the equality branch
returning 0 is unreachable. -/
theorem c10_defaultSort_never_zero (t1 t2 : SortableTask) :
    defaultSort t1 t2 = (if t1.order.getD 0 ≤ t2.order.getD 0 then -1 else 1)
    ∧ defaultSort t1 t2 ≠ 0
    ∧ (t1.order.getD 0 = t2.order.getD 0 →
        defaultSort t1 t2 = -1 ∧ defaultSort t2 t1 = -1) := by
  unfold defaultSort
  refine ⟨?_, ?_, ?_⟩
  · by_cases h : t1.order.getD 0 ≤ t2.order.getD 0
    · simp [h]
    · have h2 : ¬ t1.order.getD 0 = t2.order.getD 0 := fun he => h (le_of_eq he)
      simp [h, h2]
  · by_cases h : t1.order.getD 0 ≤ t2.order.getD 0
    · simp [h]
    · have h2 : ¬ t1.order.getD 0 = t2.order.getD 0 := fun he => h (le_of_eq he)
      simp [h, h2]
  · intro he
    constructor
    · simp [le_of_eq he]
    · simp [le_of_eq he.symm]

/-- Witness for C10 at a concrete pair of equal-order tasks. -/
theorem c10_defaultSort_never_zero_witness :
    ({ order := some 5 : SortableTask }).order.getD 0
        = ({ order := some 5 : SortableTask }).order.getD 0
    ∧ (defaultSort { order := some 5 } { order := some 5 }
          = (if ({ order := some 5 : SortableTask }).order.getD 0
                ≤ ({ order := some 5 : SortableTask }).order.getD 0 then -1 else 1)
        ∧ defaultSort { order := some 5 } { order := some 5 } ≠ 0
        ∧ (({ order := some 5 : SortableTask }).order.getD 0
              = ({ order := some 5 : SortableTask }).order.getD 0 →
            defaultSort { order := some 5 } { order := some 5 } = -1
            ∧ defaultSort { order := some 5 } { order := some 5 } = -1)) :=
  ⟨rfl, c10_defaultSort_never_zero { order := some 5 } { order := some 5 }⟩

/-- C3 counterexample: after a valid custom comparator has been
installed, a subsequently failing comparator does not fall back to the
default comparator — the previously installed custom comparator is
retained.  `badCmp` fails validation and a warning is logged, yet the
installed comparator still answers `1` on the probe pair taken twice,
where the default answers `-1`. -/
theorem c3_counterexample :
    validateSort badCmp = false
    ∧ (setSortFunction (setSortFunction defaultSortFn (some goodCmp)).1
          (some badCmp)).2 = true
    ∧ (setSortFunction (setSortFunction defaultSortFn (some goodCmp)).1
          (some badCmp)).1 probeA probeA = some 1
    ∧ defaultSortFn probeA probeA = some (-1) := by
  refine ⟨rfl, rfl, rfl, ?_⟩
  simp [defaultSortFn, defaultSort, probeA]

/-- C3 amended: whenever the user-supplied comparator fails validation
on the canonical two-record probe (the source fails to evaluate, the
call throws, or the result is not positive), the comparator installed
afterwards is the one that was installed before — which on a fresh
configuration is the default ascending-by-ordering-key comparator —
and a warning is logged; a comparator that passes the probe is
installed as given. -/
theorem c3_amended (f g : UserCmp)
    (hf : validateSort f = false) (hg : validateSort g = true) :
    setSortFunction defaultSortFn (some f) = (defaultSortFn, true)
    ∧ (∀ cur, setSortFunction cur (some f) = (cur, true))
    ∧ (∀ cur, setSortFunction cur none = (cur, true))
    ∧ (∀ cur, setSortFunction cur (some g) = (g, false)) := by
  refine ⟨?_, fun cur => ?_, fun cur => rfl, fun cur => ?_⟩
  · simp [setSortFunction, hf]
  · simp [setSortFunction, hf]
  · simp [setSortFunction, hg]

/-- Witness for C3's amended theorem at the concrete pair
`badCmp` / `goodCmp`. -/
theorem c3_amended_witness :
    validateSort badCmp = false
    ∧ validateSort goodCmp = true
    ∧ (setSortFunction defaultSortFn (some badCmp) = (defaultSortFn, true)
        ∧ (∀ cur, setSortFunction cur (some badCmp) = (cur, true))
        ∧ (∀ cur, setSortFunction cur none = (cur, true))
        ∧ (∀ cur, setSortFunction cur (some goodCmp) = (goodCmp, false))) :=
  ⟨rfl, rfl, c3_amended badCmp goodCmp rfl rfl⟩

/-!
## The task data model (`ObsidianTaskAdapter.fromLine`, lines 1808-1845)

`TaskDataModel` (declared in `utils/tasks`) is embedded with the fields
that `fromLine` actually constructs.  Fields holding host objects are
represented as follows: `link`, `section` (renamed `sectionLink` — Lean
keyword) and `header` all receive the same caller-supplied parent link,
kept abstract as a type parameter `L`; `outlinks` is the caller-supplied
link list.  `children` and `subtasks` (always constructed empty, of a
recursive type), the four date fields and the `dates` map (always
constructed `undefined` / empty) are omitted: no claim reads them and
`fromLine` never puts content into them.
-/

/-- The two keys of the front-matter cache consulted by `fromLine`:
`frontMatter['tag']` (a string, pushed when truthy, i.e. non-empty) and
`frontMatter['tags']` (an array, pushed elementwise when present). -/
structure FrontMatter where
  tag : Option Str
  tags : Option (List Str)
deriving DecidableEq

/-- The part of an Obsidian `Pos` that `fromLine` reads: the start and
end line of the item. -/
structure Pos where
  startLine : Nat
  endLine : Nat
deriving DecidableEq

/-- The task record constructed by `fromLine` (lines 1808-1845). -/
structure TaskDataModel (L : Type) where
  symbol : Str
  link : L
  sectionLink : L
  text : Str
  visual : Str
  tags : List Str
  line : Nat
  lineCount : Nat
  list : Nat
  outlinks : List L
  path : Str
  task : Bool
  annotated : Bool
  position : Pos
  real : Bool
  header : L
  status : Str
  statusMarker : Str
  checked : Bool
  completed : Bool
  fullyCompleted : Bool
  dailyNote : Bool
  order : Int
  priority : Str
  recurrence : Str
  frontMatter : FrontMatter
  isTasksTask : Bool
deriving DecidableEq

/-!
## The filter chain (`TaskOptions.set`, `getFilters`, lines 1227-1270)

The four filters close over the option fields listed in `FilterOpts`.
`TaskStatusMarkerMap` is declared in `utils/tasks`, which is not among
the provided sources; the status filter therefore takes the
marker-to-status map as an explicit parameter `mm` (`mm m = none`
models a marker absent from the map, whose `undefined` compares unequal
to the task's string status).
-/

/-- The option fields read by the four filters. -/
structure FilterOpts where
  hideStatusTasks : List Str
  useIncludeTags : Bool
  taskIncludeTags : List Str
  useExcludeTags : Bool
  taskExcludeTags : List Str
  filterEmpty : Bool

/-- Filter 1 (lines 1232-1238): hide tasks whose status marker is in
`hideStatusTasks` or whose mapped status equals the task's status. -/
def statusFilter (opts : FilterOpts) (mm : Str → Option Str)
    {L : Type} (t : TaskDataModel L) : Bool :=
  if opts.hideStatusTasks.isEmpty then true
  else if t.statusMarker ∈ opts.hideStatusTasks then false
  else ! opts.hideStatusTasks.any (fun m => mm m = some t.status)

/-- Filter 2 (lines 1242-1249): when tag inclusion is enabled and the
include list is non-empty, keep only tasks carrying one of the include
tags. -/
def includeTagFilter (opts : FilterOpts) {L : Type} (t : TaskDataModel L) : Bool :=
  if opts.useIncludeTags = false then true
  else if opts.taskIncludeTags.isEmpty then true
  else opts.taskIncludeTags.any (fun tag => tag ∈ t.tags)

/-- Filter 3 (lines 1253-1260): when tag exclusion is enabled and the
exclude list is non-empty, keep only tasks carrying none of the exclude
tags. -/
def excludeTagFilter (opts : FilterOpts) {L : Type} (t : TaskDataModel L) : Bool :=
  if opts.useExcludeTags = false then true
  else if opts.taskExcludeTags.isEmpty then true
  else opts.taskExcludeTags.all (fun tag => !(tag ∈ t.tags : Bool))

/-- Filter 4 (lines 1264-1267): when empty-filtering is enabled, drop
tasks whose visual text is blank after trimming. -/
def emptyFilter (opts : FilterOpts) {L : Type} (t : TaskDataModel L) : Bool :=
  opts.filterEmpty = false || !(jsTrim t.visual).isEmpty

/-- A task passes the chain when every filter returns `true`
(`FileTaskCache.getTasks`, line 1413: `filters.every(...)`). -/
def keepTask (opts : FilterOpts) (mm : Str → Option Str)
    {L : Type} (t : TaskDataModel L) : Bool :=
  statusFilter opts mm t && includeTagFilter opts t
    && excludeTagFilter opts t && emptyFilter opts t

/-- The kept-task set of a parsed collection. -/
def keptTasks (opts : FilterOpts) (mm : Str → Option Str)
    {L : Type} (ts : List (TaskDataModel L)) : List (TaskDataModel L) :=
  ts.filter (keepTask opts mm)

theorem filter_subset_of_imp {α : Type} (p q : α → Bool)
    (h : ∀ x, p x = true → q x = true) (l : List α) :
    l.filter p ⊆ l.filter q := by
  intro x hx
  rw [List.mem_filter] at hx ⊢
  exact ⟨hx.1, h x hx.2⟩

theorem statusFilter_cons {L : Type} (opts : FilterOpts) (mm : Str → Option Str)
    (m : Str) (t : TaskDataModel L)
    (h : statusFilter { opts with hideStatusTasks := m :: opts.hideStatusTasks } mm t = true) :
    statusFilter opts mm t = true := by
  obtain ⟨hs, ui, ti, ue, te, fe⟩ := opts
  unfold statusFilter at h ⊢
  rcases hs with _ | ⟨a, l⟩
  · simp
  · simp only [List.isEmpty_cons, Bool.false_eq_true, if_false] at h ⊢
    by_cases hm : t.statusMarker ∈ m :: a :: l
    · rw [if_pos hm] at h
      exact absurd h (by simp)
    · rw [if_neg hm] at h
      rw [if_neg (fun hx => hm (List.mem_cons_of_mem _ hx))]
      simp only [Bool.not_eq_true', List.any_eq_false] at h ⊢
      exact fun x hx => h x (List.mem_cons_of_mem _ hx)

/-- C6: the filter chain is monotonic.  For a fixed parsed collection
and all other options fixed, enabling tag-inclusion, enabling
tag-exclusion, enabling empty-filtering, or adding a marker to the
hidden-status set each produces a kept-task set that is a subset of the
kept-task set with that filter disabled. -/
theorem c6_filters_monotone {L : Type} (opts : FilterOpts)
    (mm : Str → Option Str) (ts : List (TaskDataModel L)) (m : Str) :
    keptTasks { opts with useIncludeTags := true } mm ts
        ⊆ keptTasks { opts with useIncludeTags := false } mm ts
    ∧ keptTasks { opts with useExcludeTags := true } mm ts
        ⊆ keptTasks { opts with useExcludeTags := false } mm ts
    ∧ keptTasks { opts with filterEmpty := true } mm ts
        ⊆ keptTasks { opts with filterEmpty := false } mm ts
    ∧ keptTasks { opts with hideStatusTasks := m :: opts.hideStatusTasks } mm ts
        ⊆ keptTasks opts mm ts := by
  refine ⟨?_, ?_, ?_, ?_⟩ <;>
    apply filter_subset_of_imp <;>
    intro t ht <;>
    simp only [keepTask, Bool.and_eq_true] at ht ⊢
  · exact ⟨⟨⟨ht.1.1.1, by simp [includeTagFilter]⟩, ht.1.2⟩, ht.2⟩
  · exact ⟨⟨⟨ht.1.1.1, ht.1.1.2⟩, by simp [excludeTagFilter]⟩, ht.2⟩
  · exact ⟨⟨⟨ht.1.1.1, ht.1.1.2⟩, ht.1.2⟩, by simp [emptyFilter]⟩
  · exact ⟨⟨⟨statusFilter_cons opts mm m t ht.1.1.1, ht.1.1.2⟩, ht.1.2⟩, ht.2⟩

/-!
## The Line Parser (`ObsidianTaskAdapter.fromLine`, lines 1762-1846)
-/

/-- Identifier characters of a block reference: alphanumerics and `-`. -/
def isBlockIdChar (c : Char) : Bool := c.isAlphanum || c = '-'

/-- Helper of `matchTaskLine`: after the list marker there must be at
least one whitespace character, then `[`, one status character, `]`,
and the remainder of the line is the body capture. -/
def afterListMarker (marker : Str) (rest : Str) : Option (Str × Char × Str) :=
  if (rest.takeWhile isWS).isEmpty then none
  else
    match rest.dropWhile isWS with
    | '[' :: s :: ']' :: body => some (marker, s, body)
    | _ => none

/-- Modelled from the spec: `TaskRegularExpressions.taskRegex` is
declared in `utils/tasks`, which is not among the provided sources.
Per the spec a task line is "optional indentation, a list marker, a
bracketed status marker, then a body"; per the use sites in `fromLine`
the captures are: group 2 the list marker (`-` for `- [ ]`), group 3
the status character (`x` for `- [x]`), group 4 "the whole body of the
task after the brackets".  A list marker is `-`, `*`, or a digit run
followed by `.`. -/
def matchTaskLine (line : Str) : Option (Str × Char × Str) :=
  let rest := line.dropWhile isWS
  match rest with
  | [] => none
  | c :: cs =>
    if c = '-' ∨ c = '*' then afterListMarker [c] cs
    else if c.isDigit then
      match rest.dropWhile Char.isDigit with
      | '.' :: cs2 => afterListMarker (rest.takeWhile Char.isDigit ++ ['.']) cs2
      | _ => none
    else none

/-- Modelled from the spec: `TaskRegularExpressions.blockLinkRegex` is
declared in `utils/tasks`, which is not among the provided sources.
Per the spec it matches "a trailing block-reference token (a
caret-prefixed identifier at line end)"; the match (including the
separating space before the caret) is always at the end of the line. -/
def blockLinkMatch (s : Str) : Option Str :=
  let revId := s.reverse.takeWhile isBlockIdChar
  match s.reverse.dropWhile isBlockIdChar with
  | '^' :: ' ' :: _ => if revId.isEmpty then none else some (' ' :: '^' :: revId.reverse)
  | _ => none

/-- The tags appended to the caller's tag list from front matter
(lines 1797-1804): `frontMatter['tag']` when it is a truthy string
(non-empty), then all entries of `frontMatter['tags']` when present. -/
def fmTagPush : Option FrontMatter → List Str
  | none => []
  | some fm =>
    (match fm.tag with
     | some t => if t.isEmpty then [] else [t]
     | none => []) ++ fm.tags.getD []

/-- `ObsidianTaskAdapter.fromLine` (lines 1762-1846).  The second
component of the result is the state of the caller's `tags` array
after the call: the source pushes front-matter tags onto the supplied
array before rebinding the local variable to a fresh de-duplicated
copy, so the caller's array ends as `tags ++ fmTagPush frontMatter`
(and is untouched on the not-a-task early return). -/
def fromLine {L : Type} (line filePath : Str) (parent : L) (position : Pos)
    (outLinks : List L) (tags : List Str) (frontMatter : Option FrontMatter) :
    Option (TaskDataModel L) × List Str :=
  match matchTaskLine line with
  | none => (none, tags)
  | some (listMarker, statusChar, rawBody) =>
    let body := jsTrim rawBody
    let statusString : Str := [statusChar]
    let blockLink := (blockLinkMatch body).getD []
    let description := if blockLink.isEmpty then body
      else jsTrim (stripSuffixTok body blockLink)
    let pushedTags := tags ++ fmTagPush frontMatter
    (some {
      symbol := listMarker
      link := parent
      sectionLink := parent
      text := line
      visual := jsTrim description
      tags := jsSetDedup pushedTags
      line := position.startLine
      lineCount := position.endLine - position.startLine + 1
      list := position.startLine
      outlinks := outLinks
      path := filePath
      task := true
      annotated := false
      position := position
      real := true
      header := parent
      status := statusString
      statusMarker := statusString
      checked := !(removeFirst ' ' description).isEmpty
      completed := decide (statusString = ['x'])
      fullyCompleted := decide (statusString ≠ [' '])
      dailyNote := false
      order := 0
      priority := []
      recurrence := []
      frontMatter := frontMatter.getD { tag := none, tags := none }
      isTasksTask := false }, pushedTags)

/-- A canonical task line `- [m] desc` used for the general block-link
statements. -/
def taskBodyLine (m : Char) (desc : Str) : Str :=
  '-' :: ' ' :: '[' :: m :: ']' :: ' ' :: desc

theorem matchTaskLine_taskBodyLine (m : Char) (desc : Str) :
    matchTaskLine (taskBodyLine m desc) = some (['-'], m, ' ' :: desc) := rfl

theorem jsTrim_cons_space (s : Str) : jsTrim (' ' :: s) = jsTrim s := by
  simp [jsTrim, List.dropWhile_cons, isWS]

theorem blockLinkMatch_ne_nil {s t : Str} (h : blockLinkMatch s = some t) :
    t ≠ [] := by
  unfold blockLinkMatch at h
  split at h
  · dsimp only at h
    by_cases he : (List.takeWhile isBlockIdChar s.reverse).isEmpty = true
    · rw [if_pos he] at h
      exact absurd h (by simp)
    · rw [if_neg he] at h
      rw [Option.some_inj] at h
      exact h ▸ (by simp)
  · exact absurd h (by simp)

/-- C9: parsing `- [ ] buy milk #todo` (no front matter, the line's tag
`#todo` supplied by the host's tag cache) yields a record with status
marker `' '`, visual text `buy milk #todo`, `checked = true` (the body
with its first space removed is non-empty), `completed = false` and
`fullyCompleted = false` (the marker is `' '`); the tag is kept. -/
theorem c9_scenario_buy_milk :
    ((fromLine "- [ ] buy milk #todo".toList "doc.md".toList (0 : Nat) ⟨0, 0⟩ []
        ["#todo".toList] none).1.map (·.statusMarker) = some [' '])
    ∧ ((fromLine "- [ ] buy milk #todo".toList "doc.md".toList (0 : Nat) ⟨0, 0⟩ []
        ["#todo".toList] none).1.map (·.visual) = some "buy milk #todo".toList)
    ∧ ((fromLine "- [ ] buy milk #todo".toList "doc.md".toList (0 : Nat) ⟨0, 0⟩ []
        ["#todo".toList] none).1.map (·.checked) = some true)
    ∧ ((fromLine "- [ ] buy milk #todo".toList "doc.md".toList (0 : Nat) ⟨0, 0⟩ []
        ["#todo".toList] none).1.map (·.completed) = some false)
    ∧ ((fromLine "- [ ] buy milk #todo".toList "doc.md".toList (0 : Nat) ⟨0, 0⟩ []
        ["#todo".toList] none).1.map (·.fullyCompleted) = some false)
    ∧ ((fromLine "- [ ] buy milk #todo".toList "doc.md".toList (0 : Nat) ⟨0, 0⟩ []
        ["#todo".toList] none).1.map (·.tags) = some ["#todo".toList]) := by
  decide

/-- C4 counterexample: for the line `- [ ] buy milk ^abc123` the
block-reference token is stripped from the visual text, but it is not
preserved in any distinct field of the returned record: the record is
identical, field for field, to the record parsed from
`- [ ] buy milk`, except for the raw `text` field (which merely holds
the whole original line). -/
theorem c4_counterexample :
    ((fromLine "- [ ] buy milk ^abc123".toList "p.md".toList (0 : Nat) ⟨0, 0⟩ []
        [] none).1.map (fun r => { r with text := [] })
      = (fromLine "- [ ] buy milk".toList "p.md".toList (0 : Nat) ⟨0, 0⟩ []
        [] none).1.map (fun r => { r with text := [] }))
    ∧ ((fromLine "- [ ] buy milk ^abc123".toList "p.md".toList (0 : Nat) ⟨0, 0⟩ []
        [] none).1.map (·.visual) = some "buy milk".toList)
    ∧ ((fromLine "- [ ] buy milk ^abc123".toList "p.md".toList (0 : Nat) ⟨0, 0⟩ []
        [] none).1.map (·.text)
      ≠ (fromLine "- [ ] buy milk".toList "p.md".toList (0 : Nat) ⟨0, 0⟩ []
        [] none).1.map (·.text)) := by
  decide

/-- C4 amended: for every task line whose body ends with a
caret-prefixed block-reference token, the Line Parser strips the token
from the returned record's visual text; the token is not preserved in
any distinct field — the remaining string-valued fields of the record
hold only the raw line (`text`), the caller's inputs (`path`, the
de-duplicated `tags`), the list and status markers, and empty
placeholders (`priority`, `recurrence`). -/
theorem c4_amended (m : Char) (desc tok fp : Str) (pos : Pos) (tg : List Str)
    (h : blockLinkMatch (jsTrim desc) = some tok) :
    ((fromLine (taskBodyLine m desc) fp (0 : Nat) pos [] tg none).1.map (·.visual)
        = some (jsTrim (jsTrim (stripSuffixTok (jsTrim desc) tok))))
    ∧ ((fromLine (taskBodyLine m desc) fp (0 : Nat) pos [] tg none).1.map (·.text)
        = some (taskBodyLine m desc))
    ∧ ((fromLine (taskBodyLine m desc) fp (0 : Nat) pos [] tg none).1.map (·.symbol)
        = some ['-'])
    ∧ ((fromLine (taskBodyLine m desc) fp (0 : Nat) pos [] tg none).1.map (·.status)
        = some [m])
    ∧ ((fromLine (taskBodyLine m desc) fp (0 : Nat) pos [] tg none).1.map (·.statusMarker)
        = some [m])
    ∧ ((fromLine (taskBodyLine m desc) fp (0 : Nat) pos [] tg none).1.map (·.path)
        = some fp)
    ∧ ((fromLine (taskBodyLine m desc) fp (0 : Nat) pos [] tg none).1.map (·.tags)
        = some (jsSetDedup tg))
    ∧ ((fromLine (taskBodyLine m desc) fp (0 : Nat) pos [] tg none).1.map (·.priority)
        = some [])
    ∧ ((fromLine (taskBodyLine m desc) fp (0 : Nat) pos [] tg none).1.map (·.recurrence)
        = some []) := by
  have hne : tok.isEmpty = false := by
    have := blockLinkMatch_ne_nil h
    cases tok
    · exact absurd rfl this
    · rfl
  simp only [fromLine, matchTaskLine_taskBodyLine, jsTrim_cons_space, h,
    Option.getD_some, hne, Bool.false_eq_true, if_false, Option.map_some',
    fmTagPush, List.append_nil, and_self, and_true, true_and]

/-- Witness for C4's amended theorem at the line
`- [ ] buy milk ^abc123`. -/
theorem c4_amended_witness :
    blockLinkMatch (jsTrim "buy milk ^abc123".toList) = some " ^abc123".toList
    ∧ (((fromLine (taskBodyLine ' ' "buy milk ^abc123".toList) "p.md".toList
          (0 : Nat) ⟨0, 0⟩ [] ["#x".toList] none).1.map (·.visual)
        = some (jsTrim (jsTrim (stripSuffixTok (jsTrim "buy milk ^abc123".toList)
            " ^abc123".toList))))
      ∧ ((fromLine (taskBodyLine ' ' "buy milk ^abc123".toList) "p.md".toList
          (0 : Nat) ⟨0, 0⟩ [] ["#x".toList] none).1.map (·.text)
        = some (taskBodyLine ' ' "buy milk ^abc123".toList))
      ∧ ((fromLine (taskBodyLine ' ' "buy milk ^abc123".toList) "p.md".toList
          (0 : Nat) ⟨0, 0⟩ [] ["#x".toList] none).1.map (·.symbol) = some ['-'])
      ∧ ((fromLine (taskBodyLine ' ' "buy milk ^abc123".toList) "p.md".toList
          (0 : Nat) ⟨0, 0⟩ [] ["#x".toList] none).1.map (·.status) = some [' '])
      ∧ ((fromLine (taskBodyLine ' ' "buy milk ^abc123".toList) "p.md".toList
          (0 : Nat) ⟨0, 0⟩ [] ["#x".toList] none).1.map (·.statusMarker) = some [' '])
      ∧ ((fromLine (taskBodyLine ' ' "buy milk ^abc123".toList) "p.md".toList
          (0 : Nat) ⟨0, 0⟩ [] ["#x".toList] none).1.map (·.path) = some "p.md".toList)
      ∧ ((fromLine (taskBodyLine ' ' "buy milk ^abc123".toList) "p.md".toList
          (0 : Nat) ⟨0, 0⟩ [] ["#x".toList] none).1.map (·.tags)
        = some (jsSetDedup ["#x".toList]))
      ∧ ((fromLine (taskBodyLine ' ' "buy milk ^abc123".toList) "p.md".toList
          (0 : Nat) ⟨0, 0⟩ [] ["#x".toList] none).1.map (·.priority) = some [])
      ∧ ((fromLine (taskBodyLine ' ' "buy milk ^abc123".toList) "p.md".toList
          (0 : Nat) ⟨0, 0⟩ [] ["#x".toList] none).1.map (·.recurrence) = some [])) :=
  ⟨by decide, c4_amended ' ' "buy milk ^abc123".toList " ^abc123".toList
    "p.md".toList ⟨0, 0⟩ ["#x".toList] (by decide)⟩

/-- C5 counterexample: `fromLine` is not free of side effects on its
arguments: parsing `- [ ] buy milk` with supplied tags `[#x]` and a
front matter carrying `tag: #home` leaves the caller's tags array
changed (the front-matter tag has been pushed onto it). -/
theorem c5_counterexample :
    (fromLine "- [ ] buy milk".toList "p.md".toList (0 : Nat) ⟨0, 0⟩ []
        ["#x".toList] (some { tag := some "#home".toList, tags := none })).2
      ≠ ["#x".toList] := by
  decide

/-- C5 amended: `fromLine` is deterministic in its arguments, and its
only effect on them is on the supplied tags list: when the line parses
as a task, the front-matter `tag`/`tags` entries are appended to the
caller's tags array; on the not-a-task early return, and whenever no
front matter is supplied, every argument is left unchanged. -/
theorem c5_amended {L : Type} (line fp : Str) (parent : L) (pos : Pos)
    (outLinks : List L) (tags : List Str) (fm : Option FrontMatter) :
    ((fromLine line fp parent pos outLinks tags fm).2
      = (if (matchTaskLine line).isSome then tags ++ fmTagPush fm else tags))
    ∧ (fromLine line fp parent pos outLinks tags none).2 = tags := by
  constructor
  · cases h : matchTaskLine line with
    | none => simp [fromLine, h]
    | some v =>
      obtain ⟨a, b, c⟩ := v
      simp [fromLine, h]
  · cases h : matchTaskLine line with
    | none => simp [fromLine, h]
    | some v =>
      obtain ⟨a, b, c⟩ := v
      simp [fromLine, h, fmTagPush]

/-!
## Path containment (`ObsidianTaskAdapter.isParent` /
`pathsIncludeFile`, lines 1529-1539)
-/

/-- Model of JavaScript `path.split('/')`: splitting never yields the
empty list (the empty string splits to `[""]`). -/
def splitSeg : Str → List Str
  | [] => [[]]
  | c :: rest =>
    if c = '/' then [] :: splitSeg rest
    else
      match splitSeg rest with
      | [] => [[c]]
      | seg :: segs => (c :: seg) :: segs

/-- Model of `parents.every((v, i) => v === paths[i])`: each element of
the first list must equal the element of the second list at the same
index (an out-of-range index yields `undefined`, which compares unequal
to any string). -/
def everyIndexEq : List Str → List Str → Bool
  | [], _ => true
  | _ :: _, [] => false
  | p :: ps, q :: qs => decide (p = q) && everyIndexEq ps qs

/-- `ObsidianTaskAdapter.isParent` (lines 1529-1534). -/
def isParent (parent path : Str) : Bool :=
  if parent.length > path.length then false
  else everyIndexEq (splitSeg parent) (splitSeg path)

/-- `ObsidianTaskAdapter.pathsIncludeFile` (lines 1536-1539): an empty
filter keeps every file, otherwise some include prefix must be a
parent of the file's path. -/
def pathsIncludeFile (filterPaths : List Str) (path : Str) : Bool :=
  filterPaths.isEmpty || filterPaths.any (fun p => isParent p path)

theorem splitSeg_ne_nil (s : Str) : splitSeg s ≠ [] := by
  cases s with
  | nil => simp [splitSeg]
  | cons c rest =>
    unfold splitSeg
    by_cases h : c = '/'
    · simp [h]
    · simp only [h, if_false]
      cases hs : splitSeg rest <;> simp

/-- Total number of characters a segment list accounts for, separators
included (each list of `n` segments stands for `n - 1` separators, so
we count `sum of segment lengths + number of segments`). -/
def segsTotal (l : List Str) : Nat := (l.map List.length).sum + l.length

theorem segsTotal_append (l1 l2 : List Str) :
    segsTotal (l1 ++ l2) = segsTotal l1 + segsTotal l2 := by
  simp only [segsTotal, List.map_append, List.sum_append, List.length_append]
  omega

theorem segsTotal_splitSeg (s : Str) : segsTotal (splitSeg s) = s.length + 1 := by
  induction s with
  | nil => simp [splitSeg, segsTotal]
  | cons c rest ih =>
    unfold splitSeg
    by_cases h : c = '/'
    · simp only [h, if_true]
      simp only [segsTotal, List.map_cons, List.sum_cons, List.length_cons,
        List.length_map, List.length_nil, List.sum_nil] at ih ⊢
      omega
    · simp only [h, if_false]
      cases hs : splitSeg rest with
      | nil => exact absurd hs (splitSeg_ne_nil rest)
      | cons seg segs =>
        rw [hs] at ih
        simp only [segsTotal, List.map_cons, List.sum_cons, List.length_cons] at ih ⊢
        omega

theorem prefix_segsTotal_le {l1 l2 : List Str} (h : l1 <+: l2) :
    segsTotal l1 ≤ segsTotal l2 := by
  obtain ⟨t, rfl⟩ := h
  rw [segsTotal_append]
  omega

theorem everyIndexEq_iff (ps qs : List Str) :
    everyIndexEq ps qs = true ↔ ps <+: qs := by
  induction ps generalizing qs with
  | nil => simp [everyIndexEq, List.nil_prefix]
  | cons p ps ih =>
    cases qs with
    | nil => simp [everyIndexEq]
    | cons q qs => simp [everyIndexEq, ih, List.cons_prefix_cons]

theorem isParent_iff (parent path : Str) :
    isParent parent path = true ↔ splitSeg parent <+: splitSeg path := by
  unfold isParent
  by_cases h : parent.length > path.length
  · rw [if_pos h]
    simp only [Bool.false_eq_true, false_iff]
    intro hp
    have hle := prefix_segsTotal_le hp
    rw [segsTotal_splitSeg, segsTotal_splitSeg] at hle
    omega
  · rw [if_neg h]
    exact everyIndexEq_iff _ _

/-- C8: document path-include selection is prefix-segment matching: a
path passes the include filter exactly when the filter is empty or some
include prefix's `/`-segments are a leading-segment prefix of the
path's `/`-segments (the length guard in `isParent` is redundant: a
segment prefix never has more characters than the whole path).  In
particular `Projects` matches `Projects/x.md` but not `Archive/x.md`,
and `note` does not match `note2`. -/
theorem c8_path_include_prefix_segments :
    (∀ (fl : List Str) (path : Str),
      pathsIncludeFile fl path = true
        ↔ fl = [] ∨ ∃ p ∈ fl, splitSeg p <+: splitSeg path)
    ∧ (∀ path : Str, pathsIncludeFile [] path = true)
    ∧ isParent "Projects".toList "Projects/x.md".toList = true
    ∧ isParent "Projects".toList "Archive/x.md".toList = false
    ∧ isParent "note".toList "note2".toList = false := by
  refine ⟨fun fl path => ?_, fun path => rfl, by decide, by decide, by decide⟩
  simp [pathsIncludeFile, isParent_iff, List.isEmpty_iff]

/-!
## JavaScript `Record` objects as association lists

`Record<K, V>` objects are modelled as ordered association lists:
assignment replaces the value in place when the key exists and appends
otherwise; `in` tests key presence; `delete` removes the key's entry.
-/

/-- `obj[k] = v`. -/
def recordSet {α : Type} (tbl : List (Str × α)) (k : Str) (v : α) : List (Str × α) :=
  match tbl with
  | [] => [(k, v)]
  | (k2, v2) :: rest =>
    if k2 = k then (k, v) :: rest else (k2, v2) :: recordSet rest k v

/-- `obj[k]` (`none` = `undefined`). -/
def recordLookup {α : Type} (tbl : List (Str × α)) (k : Str) : Option α :=
  match tbl with
  | [] => none
  | (k2, v) :: rest => if k2 = k then some v else recordLookup rest k

/-- `k in obj`. -/
def recordHasKey {α : Type} (tbl : List (Str × α)) (k : Str) : Bool :=
  match tbl with
  | [] => false
  | (k2, _) :: rest => decide (k2 = k) || recordHasKey rest k

/-- In-place mutation of the value stored under an existing key
(e.g. `obj[k].push(x)`). -/
def recordModify {α : Type} (tbl : List (Str × α)) (k : Str) (f : α → α) :
    List (Str × α) :=
  match tbl with
  | [] => []
  | (k2, v) :: rest =>
    if k2 = k then (k2, f v) :: rest else (k2, v) :: recordModify rest k f

/-- `delete obj[k]`. -/
def recordDelete {α : Type} (tbl : List (Str × α)) (k : Str) : List (Str × α) :=
  match tbl with
  | [] => []
  | (k2, v) :: rest => if k2 = k then rest else (k2, v) :: recordDelete rest k

/-- Obsidian's `Array.prototype.remove(target)`: removal of the first
occurrence of an element. -/
def listRemoveFirst {α : Type} [DecidableEq α] (x : α) : List α → List α
  | [] => []
  | a :: l => if a = x then l else a :: listRemoveFirst x l

/-!
## The task-table merge of `setTasks` (lines 1602-1604)
-/

/-- The merge loop of `ObsidianTaskAdapter.setTasks` (lines 1602-1604):
`result.tasks.forEach((task) => { this._tasks[task.path] = task; })` —
each resolved record is written into the `_tasks` table under the key
`task.path`. -/
def mergeTasks {L : Type} (tbl : List (Str × TaskDataModel L))
    (tasks : List (TaskDataModel L)) : List (Str × TaskDataModel L) :=
  tasks.foldl (fun acc t => recordSet acc t.path t) tbl

/-- Modelled from the spec: a Task Record's "stable identity" is
"document path + item position".  The record itself carries no
dedicated identity field, so the identity is read off these two
fields. -/
def taskIdentity {L : Type} (t : TaskDataModel L) : Str × Pos :=
  (t.path, t.position)

/-- A minimal concrete record for table experiments: a task of
document `pth` whose item sits at line `ln`. -/
def sampleTask (pth : Str) (ln : Nat) : TaskDataModel Unit :=
  { symbol := ['-'], link := (), sectionLink := (), text := [], visual := ['a'],
    tags := [], line := ln, lineCount := 1, list := ln, outlinks := [],
    path := pth, task := true, annotated := false,
    position := { startLine := ln, endLine := ln }, real := true, header := (),
    status := [' '], statusMarker := [' '], checked := true, completed := false,
    fullyCompleted := false, dailyNote := false, order := 0, priority := [],
    recurrence := [], frontMatter := { tag := none, tags := none },
    isTasksTask := false }

/-- C1 (code bug): the task table is keyed by `task.path` alone, not by
the record's identity.  Two records from the same document with
different identities (items at lines 0 and 1 of `a.md`) collide: after
the merge the table holds a single entry, the later record having
overwritten the earlier one. -/
theorem c1_table_keyed_by_path_only :
    taskIdentity (sampleTask "a.md".toList 0) ≠ taskIdentity (sampleTask "a.md".toList 1)
    ∧ mergeTasks [] [sampleTask "a.md".toList 0, sampleTask "a.md".toList 1]
        = [("a.md".toList, sampleTask "a.md".toList 1)]
    ∧ (mergeTasks [] [sampleTask "a.md".toList 0, sampleTask "a.md".toList 1]).length
        = 1 := by
  decide

/-!
## The pending-resolution registry
(`ItemTaskCache.getTaskDataModel` / `remove`, lines 1460-1506)

`FileTaskCache` and `ItemTaskCache` objects are identified by numeric
tokens (reference equality); `fileId` is the owning document's path
(`FileTaskCache.id = file.path`) and `itemId` is the item identity
(`ItemTaskCache.id = fileCache.id + (item.id ?? item.parent)` — always
a strict extension of `fileId`, hence a different key).
-/

/-- The two mappings of the registry. -/
structure RegistryState where
  internalFileQueue : List (Str × List Nat)
  internalListQueue : List (Str × Nat)
deriving DecidableEq

/-- The registration steps at the top of `getTaskDataModel`
(lines 1483-1497): ensure `internalFileQueue[fileCache.id]` exists and
push the owning `FileTaskCache` onto it; then store into
`internalListQueue[this.id]` the previous entry if one exists and is
unresolved, otherwise this cache itself. -/
def registerResolution (fileId itemId : Str) (fc self : Nat)
    (resolvedOf : Nat → Bool) (st : RegistryState) : RegistryState :=
  let fq0 := if recordHasKey st.internalFileQueue fileId then st.internalFileQueue
    else recordSet st.internalFileQueue fileId []
  let fq1 := recordModify fq0 fileId (fun l => l ++ [fc])
  let stored :=
    match recordLookup st.internalListQueue itemId with
    | some e => if resolvedOf e then self else e
    | none => self
  { internalFileQueue := fq1
    internalListQueue := recordSet st.internalListQueue itemId stored }

/-- `ItemTaskCache.remove` (lines 1467-1478), run in the `finally` of
`getTaskDataModel`: it indexes `internalFileQueue` with `this.id` (the
ITEM identity), not with `this._fileCache.id` (the document path) —
creating an empty list under the item id when absent, removing the
`FileTaskCache` from that (empty) list, and deleting the
`internalListQueue` entry under the item id. -/
def removeResolution (itemId : Str) (fc : Nat) (st : RegistryState) : RegistryState :=
  let fq0 := if recordHasKey st.internalFileQueue itemId then st.internalFileQueue
    else recordSet st.internalFileQueue itemId []
  let fq1 := recordModify fq0 itemId (listRemoveFirst fc)
  { internalFileQueue := fq1
    internalListQueue :=
      if recordHasKey st.internalListQueue itemId then
        recordDelete st.internalListQueue itemId
      else st.internalListQueue }

/-- One complete item resolution as it touches the registry: the
registration steps, the parse (no registry effect), then the
guaranteed `remove` on the exit path. -/
def itemResolutionBracket (fileId itemId : Str) (fc self : Nat)
    (resolvedOf : Nat → Bool) (st : RegistryState) : RegistryState :=
  removeResolution itemId fc (registerResolution fileId itemId fc self resolvedOf st)

/-- C2 (code bug): after a single item resolution completes from an
empty registry, the item's entry has been removed from the
item-identity mapping, but the owning `FileTaskCache` is still
registered under the document path in `internalFileQueue` (the removal
used the item id `a.md3` as key, where nothing was ever registered,
and left a spurious empty entry under that key). -/
theorem c2_document_entry_not_removed :
    (itemResolutionBracket "a.md".toList "a.md3".toList 7 1 (fun _ => false)
        { internalFileQueue := [], internalListQueue := [] }).internalListQueue = []
    ∧ recordLookup (itemResolutionBracket "a.md".toList "a.md3".toList 7 1
        (fun _ => false)
        { internalFileQueue := [], internalListQueue := [] }).internalFileQueue
        "a.md".toList = some [7]
    ∧ recordLookup (itemResolutionBracket "a.md".toList "a.md3".toList 7 1
        (fun _ => false)
        { internalFileQueue := [], internalListQueue := [] }).internalFileQueue
        "a.md3".toList = some [] := by
  decide

/-!
## The per-item memoized resolution (`ItemTaskCache.task`, lines 1460-1465)

The getter stores the resolution (synchronously, before any suspension
point) on first access and returns the stored resolution on every
later access.  `parse` receives the number of parses already
performed, so a hypothetical second parse would be observable as a
different record.
-/

/-- The memo state of one `ItemTaskCache`: `_asyncTaskData` plus an
instrumentation counter of started parses. -/
structure ItemCacheState (R : Type) where
  asyncTaskData : Option R
  parseCount : Nat
deriving DecidableEq

/-- The `task` getter (lines 1460-1465): if `_asyncTaskData` is null,
start `getTaskDataModel()` and store it; return the stored
resolution. -/
def taskGet {R : Type} (parse : Nat → R) (st : ItemCacheState R) :
    R × ItemCacheState R :=
  match st.asyncTaskData with
  | some r => (r, st)
  | none =>
    let r := parse st.parseCount
    (r, { asyncTaskData := some r, parseCount := st.parseCount + 1 })

/-- `n` successive accesses of the getter, collecting what each
requester observes. -/
def taskGetRuns {R : Type} (parse : Nat → R) :
    Nat → ItemCacheState R → List R × ItemCacheState R
  | 0, st => ([], st)
  | n + 1, st =>
    let p := taskGet parse st
    let q := taskGetRuns parse n p.2
    (p.1 :: q.1, q.2)

theorem taskGetRuns_filled {R : Type} (parse : Nat → R) (r : R) (c : Nat) (n : Nat) :
    taskGetRuns parse n { asyncTaskData := some r, parseCount := c }
      = (List.replicate n r, { asyncTaskData := some r, parseCount := c }) := by
  induction n with
  | zero => simp [taskGetRuns]
  | succ n ih => simp [taskGetRuns, taskGet, ih, List.replicate_succ]

/-- C7: the parse of an Item Cache Entry is started at most once: for
any number `n + 1` of accesses starting from the fresh entry, the
parse counter ends at 1 (the first access triggered it) and every
requester observes the same record — the result of that single first
parse. -/
theorem c7_parse_memoized_once {R : Type} (parse : Nat → R) (n : Nat) :
    (taskGetRuns parse (n + 1) { asyncTaskData := none, parseCount := 0 }).1
      = List.replicate (n + 1) (parse 0)
    ∧ (taskGetRuns parse (n + 1) { asyncTaskData := none, parseCount := 0 }).2
      = { asyncTaskData := some (parse 0), parseCount := 1 } := by
  simp [taskGetRuns, taskGet, taskGetRuns_filled, List.replicate_succ]
